import Mathlib

/-!
Shallow embedding of the repository source file
`keras_core/layers/rnn/stacked_rnn_cells.py` (class `StackedRNNCells`):
construction-time contract validation, output-size resolution,
initial-state generation, the per-timestep call loop, lazy build, and
config serialization round-trip.  Python integers become `Nat`, tuples of
dimensions become `List Nat`, duck-typed attribute presence becomes
explicit `Bool` or `Option` fields, and code paths that can raise return
`Except` values whose error constructors name the failure site.
-/

set_option autoImplicit false

namespace StackedRNN

/-- The `state_size` attribute of a cell: either a single dimension (a
Python `int`) or an ordered sequence of dimensions (a `list` or `tuple`,
one entry per internal state tensor). -/
inductive StateSize where
  | scalar (n : Nat)
  | seq (dims : List Nat)
deriving DecidableEq

/-- Symbolic tensors.  The tensor runtime is an external collaborator;
this core only ever allocates zero-filled tensors (`ops.zeros`) of a given
shape and dtype, or passes opaque tensors through unchanged. -/
inductive Tensor where
  | zeros (shape : List Nat) (dtype : String)
  | sym (id : Nat)
deriving DecidableEq

/-- A per-cell state value: either a single tensor or a nested (list)
value, which is exactly the distinction `nest.is_nested` draws inside
`call`. -/
inductive PerCellState where
  | single (t : Tensor)
  | nested (ts : List Tensor)
deriving DecidableEq

/-- The keyword arguments threaded through the `call` loop: the mutable
`training` entry (set or popped once per cell) plus the remaining
forwarded kwargs, held abstract as opaque key-value pairs. -/
structure Kwargs where
  training : Option Bool
  rest : List (String × Nat)
deriving DecidableEq

/-- A duck-typed cell.  `hasCall` and `hasStateSize` model attribute
presence — what the `dir(cell)` membership checks in `__init__` observe;
the remaining fields model the attributes themselves and are consulted
only on code paths Python reaches after validation.  `stepFn` is the
resolved invocation entry point (`cell.__call__` when the cell object is
callable, else `cell.call`); `isLayer` models `isinstance(cell, Layer)`;
`callHasTrainingArg` models `cell._call_has_training_arg()`;
`hasBuildHook` records whether the cell exposes a `build` method — the
source never consults this capability, since the build loop guards on
`isinstance(cell, Layer)` alone. -/
structure Cell where
  typeId : String
  hasCall : Bool
  hasStateSize : Bool
  state_size : StateSize
  output_size : Option Nat
  isLayer : Bool
  built : Bool
  hasBuildHook : Bool
  callHasTrainingArg : Bool
  getInitialStateFn : Option (Nat → PerCellState)
  stepFn : Tensor → List Tensor → Kwargs → Tensor × PerCellState

/-- The composite layer: the ordered cell sequence plus the base-layer
configuration forwarded to the superclass constructor (held abstract), the
`compute_dtype` of the layer, and the `built` flag. -/
structure StackedRNNCells where
  cells : List Cell
  base : List (String × Nat)
  compute_dtype : String
  built : Bool

/-- Errors raised by the constructor validation loop. -/
inductive InitError where
  | missingCall
  | missingStateSize
deriving DecidableEq

/-- The validation loop of `__init__`: every cell must expose a `call`
method and a `state_size` attribute; the first missing capability raises
a `ValueError`. -/
def validateCells : List Cell → Except InitError Unit
  | [] => Except.ok ()
  | c :: restCells =>
    if c.hasCall = false then Except.error InitError.missingCall
    else if c.hasStateSize = false then Except.error InitError.missingStateSize
    else validateCells restCells

/-- The constructor `StackedRNNCells.__init__`: validate every candidate
and, on success, store the cells in the given order.  A freshly
constructed layer is not built. -/
def StackedRNNCells.init (cells : List Cell) (base : List (String × Nat))
    (dtype : String) : Except InitError StackedRNNCells :=
  match validateCells cells with
  | Except.error e => Except.error e
  | Except.ok _ => Except.ok (StackedRNNCells.mk cells base dtype false)

/-- Errors reachable from the `output_size` property. -/
inductive OutputSizeError where
  | emptyCells
  | emptyStateSize
deriving DecidableEq

/-- The output-size precedence shared by the `output_size` property and by
`build`: the declared `output_size` of the cell when present and not
`None`; else the first element of a `list`/`tuple` `state_size` (`none`
here models the `state_size[0]` IndexError on an empty sequence); else the
scalar `state_size` itself. -/
def resolveOutputDim (c : Cell) : Option Nat :=
  match c.output_size with
  | some n => some n
  | none =>
    match c.state_size with
    | StateSize.seq dims => dims.head?
    | StateSize.scalar n => some n

/-- The `output_size` property: resolve the last cell (`self.cells[-1]`;
`emptyCells` models the IndexError that indexing raises on an empty cell
list). -/
def StackedRNNCells.output_size (m : StackedRNNCells) :
    Except OutputSizeError Nat :=
  match m.cells.getLast? with
  | none => Except.error OutputSizeError.emptyCells
  | some c =>
    match resolveOutputDim c with
    | none => Except.error OutputSizeError.emptyStateSize
    | some n => Except.ok n

/-- The per-cell branch of `get_initial_state`: use the generator of the
cell itself when present, else zero-fill one `(batch, d)` tensor per state
dimension in the given dtype, wrapping a scalar `state_size` into a
singleton list first. -/
def cellInitialState (dtype : String) (batch : Nat) (c : Cell) :
    PerCellState :=
  match c.getInitialStateFn with
  | some fn => fn batch
  | none =>
    match c.state_size with
    | StateSize.scalar n => PerCellState.nested [Tensor.zeros [batch, n] dtype]
    | StateSize.seq dims =>
        PerCellState.nested (dims.map (fun d => Tensor.zeros [batch, d] dtype))

/-- The method `get_initial_state`: one entry per cell, in cell order, in
the `compute_dtype` of the composite. -/
def StackedRNNCells.get_initial_state (m : StackedRNNCells) (batch : Nat) :
    List PerCellState :=
  m.cells.map (cellInitialState m.compute_dtype batch)

/-- State normalization at the top of the `call` loop body:
`list(states) if nest.is_nested(states) else [states]`. -/
def normalizeState : PerCellState → List Tensor
  | PerCellState.single t => [t]
  | PerCellState.nested ts => ts

/-- The loop of `call`, instrumented: alongside the final output and the
accumulated new states it records, per visited cell, the exact kwargs the
entry point of that cell received (a ghost trace that does not influence
the computation).  The zip of cells with states stops at the shorter list,
and the mutated kwargs dict is threaded into the next iteration, exactly
as in the source. -/
def callLoop (training : Bool) :
    List Cell → List PerCellState → Tensor → Kwargs →
      Tensor × List PerCellState × List Kwargs
  | [], _, inputs, _ => (inputs, [], [])
  | _ :: _, [], inputs, _ => (inputs, [], [])
  | c :: cs, s :: ss, inputs, kw =>
    let sts := normalizeState s
    let kw2 : Kwargs :=
      if c.isLayer && c.callHasTrainingArg then Kwargs.mk (some training) kw.rest
      else Kwargs.mk none kw.rest
    let step := c.stepFn inputs sts kw2
    let r := callLoop training cs ss step.1 kw2
    (r.1, step.2 :: r.2.1, kw2 :: r.2.2)

/-- The method `call(inputs, states, training=False, **kwargs)`: `rest`
is the captured `**kwargs` mapping, which cannot itself contain a
`training` entry since `training` is a named parameter. -/
def StackedRNNCells.call (m : StackedRNNCells) (inputs : Tensor)
    (states : List PerCellState) (training : Bool)
    (rest : List (String × Nat)) : Tensor × List PerCellState :=
  ((callLoop training m.cells states inputs (Kwargs.mk none rest)).1,
   (callLoop training m.cells states inputs (Kwargs.mk none rest)).2.1)

/-- Ghost projection of the instrumented loop: the kwargs each visited
cell received during `call`. -/
def StackedRNNCells.callKwTrace (m : StackedRNNCells) (inputs : Tensor)
    (states : List PerCellState) (training : Bool)
    (rest : List (String × Nat)) : List Kwargs :=
  (callLoop training m.cells states inputs (Kwargs.mk none rest)).2.2

/-- Errors reachable from `build`. -/
inductive BuildError where
  | emptyInputShape
  | emptyStateSize
deriving DecidableEq

/-- Mark a cell built (`cell.built = True`). -/
def Cell.markBuilt (c : Cell) : Cell := { c with built := true }

/-- The loop of `build`: for each cell in order, invoke the build hook of
the cell with the running input shape when the cell is a `Layer` that is
not yet built (the returned trace records, per cell, the shape its hook
received, `none` when the hook was skipped), then hand the next cell the
shape `(batch, output_dim)` where `batch` is the first element of the
flattened running shape (`nest.flatten(input_shape)[0]`) and `output_dim`
follows the shared output-size precedence. -/
def buildLoop : List Cell → List Nat →
    Except BuildError (List Cell × List (Option (List Nat)))
  | [], _ => Except.ok ([], [])
  | c :: cs, shape =>
    let doBuild := c.isLayer && !c.built
    let c2 := if doBuild then Cell.markBuilt c else c
    match resolveOutputDim c with
    | none => Except.error BuildError.emptyStateSize
    | some dim =>
      match shape with
      | [] => Except.error BuildError.emptyInputShape
      | b :: _ =>
        match buildLoop cs [b, dim] with
        | Except.error e => Except.error e
        | Except.ok r =>
            Except.ok (c2 :: r.1, (if doBuild then some shape else none) :: r.2)

/-- The method `build(input_shape)`: run the loop over the cells, then
mark the composite itself built. -/
def StackedRNNCells.build (m : StackedRNNCells) (shape : List Nat) :
    Except BuildError (StackedRNNCells × List (Option (List Nat))) :=
  match buildLoop m.cells shape with
  | Except.error e => Except.error e
  | Except.ok r =>
      Except.ok (StackedRNNCells.mk r.1 m.base m.compute_dtype true, r.2)

/-- Modelled from the spec: one `ConfigDescriptor` entry, a pair of a
type identifier and the cell-specific reconstruction configuration that
`serialization_lib.serialize_keras_object` captures.  The registry code
itself is outside the source under review. -/
structure Descriptor where
  typeId : String
  payload : Cell

/-- Modelled from the spec: `serialization_lib.serialize_keras_object` of
the external registry — captures the type identifier of the cell plus
enough configuration to recreate an equivalent cell instance. -/
def serialize_keras_object (c : Cell) : Descriptor :=
  Descriptor.mk c.typeId c

/-- Modelled from the spec: `serialization_lib.deserialize_keras_object`
of the external registry — reconstructs a cell from its descriptor via a
registry lookup on the type identifier; an identifier absent from the
registry fails reconstruction with an error naming it. -/
def deserialize_keras_object (registry : List String) (d : Descriptor) :
    Except String Cell :=
  if d.typeId ∈ registry then Except.ok d.payload else Except.error d.typeId

/-- Errors reachable from `from_config`: a failed cell reconstruction, or
a constructor validation failure on the reconstructed cells. -/
inductive FromConfigError where
  | deser (typeId : String)
  | ctor (e : InitError)
deriving DecidableEq

/-- The serialized config of the composite: the per-cell descriptors in
cell order (the `"cells"` entry) merged with the base-layer config. -/
structure StackedConfig where
  cellDescs : List Descriptor
  base : List (String × Nat)
  dtype : String

/-- The method `get_config`: serialize each cell, in order, and merge the
result with the base config. -/
def StackedRNNCells.get_config (m : StackedRNNCells) : StackedConfig :=
  StackedConfig.mk (m.cells.map serialize_keras_object) m.base m.compute_dtype

/-- The reconstruction loop of `from_config`: deserialize each descriptor
in order; the first failure aborts the whole loop. -/
def deserializeCells (registry : List String) :
    List Descriptor → Except String (List Cell)
  | [] => Except.ok []
  | d :: ds =>
    match deserialize_keras_object registry d with
    | Except.error t => Except.error t
    | Except.ok c =>
      match deserializeCells registry ds with
      | Except.error t => Except.error t
      | Except.ok cs => Except.ok (c :: cs)

/-- The classmethod `from_config`: reconstruct every cell in order, then
run the constructor (`cls(cells, **config)`) on the reconstructed
sequence plus the remaining base configuration. -/
def StackedRNNCells.from_config (registry : List String)
    (cfg : StackedConfig) : Except FromConfigError StackedRNNCells :=
  match deserializeCells registry cfg.cellDescs with
  | Except.error t => Except.error (FromConfigError.deser t)
  | Except.ok cells =>
    match StackedRNNCells.init cells cfg.base cfg.dtype with
    | Except.error e => Except.error (FromConfigError.ctor e)
    | Except.ok m => Except.ok m

/-- Specification-side kwargs for one cell (spec section 4.5): the
training flag is forwarded when the cell is a `Layer` whose call signature
declares a training argument, and dropped otherwise. -/
def kwFor (training : Bool) (rest : List (String × Nat)) (c : Cell) :
    Kwargs :=
  if c.isLayer && c.callHasTrainingArg then Kwargs.mk (some training) rest
  else Kwargs.mk none rest

/-- Specification-side description of the stepped invocation (spec
section 4.5): invoke the cells strictly in order, feeding each one the
output of the previous cell (the first receives the original input), with
the per-cell state normalized to a sequence first and the per-cell kwargs
computed independently per cell; return the final output, the new states
in cell order, and (as a ghost component) the kwargs each cell received. -/
def callSpecT (training : Bool) (rest : List (String × Nat)) :
    List Cell → List PerCellState → Tensor →
      Tensor × List PerCellState × List Kwargs
  | [], _, inp => (inp, [], [])
  | _ :: _, [], inp => (inp, [], [])
  | c :: cs, s :: ss, inp =>
    let step := c.stepFn inp (normalizeState s) (kwFor training rest c)
    let r := callSpecT training rest cs ss step.1
    (r.1, step.2 :: r.2.1, kwFor training rest c :: r.2.2)

/-- Specification-side description of `call` as the pair the claim talks
about: final output and accumulated per-cell states. -/
def callSpec (training : Bool) (rest : List (String × Nat))
    (cells : List Cell) (states : List PerCellState) (inp : Tensor) :
    Tensor × List PerCellState :=
  ((callSpecT training rest cells states inp).1,
   (callSpecT training rest cells states inp).2.1)

/-- Specification-side description of the build shape threading (spec
section 4.3, with the hook guard amended to what the code applies): the
running shape starts at the input shape; the hook of cell `i` receives
the running shape exactly when that cell is an unbuilt `Layer` instance —
the `isinstance(cell, Layer)` guard of the source, so a non-Layer cell
exposing a build hook triggers no invocation; the next running shape is
`(batch, output_dim)` with `batch` the first element of the flattened
running shape and `output_dim` the resolved output dimension of the
cell. -/
def buildTraceSpec : List Cell → List Nat → List (Option (List Nat))
  | [], _ => []
  | c :: cs, shape =>
    (if c.isLayer && !c.built then some shape else none) ::
      buildTraceSpec cs [shape.headD 0, (resolveOutputDim c).getD 0]

/-- Declared state arity of a `state_size` value: 1 for a scalar, the
sequence length otherwise. -/
def StateSize.arity : StateSize → Nat
  | StateSize.scalar _ => 1
  | StateSize.seq dims => dims.length

/-- Arity of a state value: 1 for a single tensor, the list length
otherwise. -/
def PerCellState.arity : PerCellState → Nat
  | PerCellState.single _ => 1
  | PerCellState.nested ts => ts.length

/-- Concrete cell builder for witnesses: a cell exposing `call` and
`state_size`, with a step that returns its input and the normalized
state. -/
def mkCell (tid : String) (ss : StateSize) (os : Option Nat)
    (layer wasBuilt hasTr : Bool) : Cell :=
  Cell.mk tid true true ss os layer wasBuilt layer hasTr none
    (fun i s _ => (i, PerCellState.nested s))

/-- Witness cell with scalar state size 4, a `Layer`, no training
argument. -/
def cellA : Cell := mkCell "A" (StateSize.scalar 4) none true false false

/-- Witness cell with scalar state size 8, a `Layer`, accepting a
training argument. -/
def cellB : Cell := mkCell "B" (StateSize.scalar 8) none true false true

/-- Witness cell with a sequence state size and a declared output size. -/
def cellC : Cell := mkCell "C" (StateSize.seq [5, 6]) (some 16) true false true

/-- Witness candidate lacking a `call` method. -/
def badCell : Cell :=
  Cell.mk "bad" false true (StateSize.scalar 1) none false false false false
    none (fun i s _ => (i, PerCellState.nested s))

/-- Witness cell that is not a `Layer` but whose call signature declares
a training argument. -/
def nonLayerTrainingCell : Cell :=
  Cell.mk "NL" true true (StateSize.scalar 2) none false false false true
    none (fun i s _ => (i, PerCellState.nested s))

/-- Witness cell that is not a `Layer`, is not yet built, and exposes a
build hook. -/
def nonLayerBuildCell : Cell :=
  Cell.mk "NB" true true (StateSize.scalar 2) none false false true false
    none (fun i s _ => (i, PerCellState.nested s))

/-- Witness composite of two scalar-state cells. -/
def demo2 : StackedRNNCells :=
  StackedRNNCells.mk [cellA, cellB] [] "float32" false

/-- Witness composite of three cells whose last declares an output size. -/
def demo3 : StackedRNNCells :=
  StackedRNNCells.mk [cellA, cellB, cellC] [] "float32" false

/-- Witness composite holding the single non-Layer training-capable
cell. -/
def demoNonLayer : StackedRNNCells :=
  StackedRNNCells.mk [nonLayerTrainingCell] [] "float32" false

/-- Witness composite holding the single non-Layer cell that exposes a
build hook. -/
def demoNonLayerBuild : StackedRNNCells :=
  StackedRNNCells.mk [nonLayerBuildCell] [] "float32" false

/-- The two-cell witness composite after a successful build. -/
def demo2Built : StackedRNNCells :=
  StackedRNNCells.mk [Cell.markBuilt cellA, Cell.markBuilt cellB] []
    "float32" true

theorem validateCells_ok (cells : List Cell)
    (h : ∀ c ∈ cells, c.hasCall = true ∧ c.hasStateSize = true) :
    validateCells cells = Except.ok () := by
  induction cells with
  | nil => rfl
  | cons c cs ih =>
    have hc := h c (List.mem_cons_self c cs)
    simp only [validateCells, hc.1, hc.2]
    simp only [Bool.true_eq_false, if_false]
    exact ih (fun x hx => h x (List.mem_cons_of_mem c hx))

theorem validateCells_err (cells : List Cell)
    (h : ∃ c ∈ cells, c.hasCall = false ∨ c.hasStateSize = false) :
    ∃ e, validateCells cells = Except.error e := by
  induction cells with
  | nil => simp at h
  | cons c cs ih =>
    by_cases h1 : c.hasCall = false
    · exact ⟨InitError.missingCall, by simp [validateCells, h1]⟩
    · by_cases h2 : c.hasStateSize = false
      · exact ⟨InitError.missingStateSize, by simp [validateCells, h1, h2]⟩
      · obtain ⟨x, hx, hprop⟩ := h
        rcases List.mem_cons.mp hx with rfl | hx2
        · rcases hprop with hp | hp
          · exact absurd hp h1
          · exact absurd hp h2
        · obtain ⟨e, he⟩ := ih ⟨x, hx2, hprop⟩
          exact ⟨e, by simp [validateCells, h1, h2, he]⟩

theorem callLoop_eq_spec (training : Bool) (rest : List (String × Nat)) :
    ∀ (cells : List Cell) (states : List PerCellState) (inp : Tensor)
      (t : Option Bool),
    callLoop training cells states inp (Kwargs.mk t rest) =
      callSpecT training rest cells states inp := by
  intro cells
  induction cells with
  | nil => intro states inp t; rfl
  | cons c cs ih =>
    intro states inp t
    cases states with
    | nil => rfl
    | cons s ss =>
      cases hc : c.isLayer && c.callHasTrainingArg with
      | false => simp [callLoop, callSpecT, kwFor, hc, ih]
      | true => simp [callLoop, callSpecT, kwFor, hc, ih]

theorem callSpecT_states_len (training : Bool) (rest : List (String × Nat)) :
    ∀ (cells : List Cell) (states : List PerCellState) (inp : Tensor),
    states.length = cells.length →
    (callSpecT training rest cells states inp).2.1.length = cells.length := by
  intro cells
  induction cells with
  | nil => intro states inp h; rfl
  | cons c cs ih =>
    intro states inp h
    cases states with
    | nil => simp at h
    | cons s ss =>
      simp only [List.length_cons] at h
      simp [callSpecT]
      exact ih ss _ (Nat.succ_injective h)

theorem callSpecT_trace (training : Bool) (rest : List (String × Nat)) :
    ∀ (cells : List Cell) (states : List PerCellState) (inp : Tensor),
    states.length = cells.length →
    (callSpecT training rest cells states inp).2.2 =
      cells.map (kwFor training rest) := by
  intro cells
  induction cells with
  | nil => intro states inp h; rfl
  | cons c cs ih =>
    intro states inp h
    cases states with
    | nil => simp at h
    | cons s ss =>
      simp only [List.length_cons] at h
      simp [callSpecT]
      exact ih ss _ (Nat.succ_injective h)

/-- C1: the call operation of the composite invokes the cells strictly in
order, feeding each cell the output of the previous one (the first cell
receives the original input), normalizes each per-cell state to a
sequence before invoking its cell (a nested state becomes the list of its
tensors, a non-nested one a singleton list), and returns the final output
paired with the new per-cell states accumulated in cell order — `call`
coincides with the specification-side pipeline `callSpec`; when the state
list has one element per cell, the returned state list again has one
element per cell. -/
theorem call_follows_pipeline (m : StackedRNNCells) (inputs : Tensor)
    (states : List PerCellState) (training : Bool)
    (rest : List (String × Nat)) :
    m.call inputs states training rest =
      callSpec training rest m.cells states inputs ∧
    (states.length = m.cells.length →
      (m.call inputs states training rest).2.length = m.cells.length) := by
  constructor
  · unfold StackedRNNCells.call callSpec
    rw [callLoop_eq_spec]
  · intro h
    unfold StackedRNNCells.call
    rw [callLoop_eq_spec]
    exact callSpecT_states_len training rest m.cells states inputs h

/-- Witness for C1 at a concrete two-cell composite with one nested and
one non-nested state. -/
theorem call_follows_pipeline_witness :
    (([PerCellState.single (Tensor.sym 1),
       PerCellState.nested [Tensor.sym 2]] : List PerCellState).length =
        demo2.cells.length) ∧
    demo2.call (Tensor.sym 0)
        [PerCellState.single (Tensor.sym 1), PerCellState.nested [Tensor.sym 2]]
        true [] =
      callSpec true [] demo2.cells
        [PerCellState.single (Tensor.sym 1), PerCellState.nested [Tensor.sym 2]]
        (Tensor.sym 0) ∧
    (demo2.call (Tensor.sym 0)
        [PerCellState.single (Tensor.sym 1), PerCellState.nested [Tensor.sym 2]]
        true []).2.length = demo2.cells.length :=
  ⟨rfl,
   (call_follows_pipeline demo2 (Tensor.sym 0)
     [PerCellState.single (Tensor.sym 1), PerCellState.nested [Tensor.sym 2]]
     true []).1,
   (call_follows_pipeline demo2 (Tensor.sym 0)
     [PerCellState.single (Tensor.sym 1), PerCellState.nested [Tensor.sym 2]]
     true []).2 rfl⟩

/-- C7 counterexample: a cell that is not a `Layer` but whose call
signature declares a training argument does not receive the flag — during
a call carrying `training = true` the kwargs handed to it have the
training entry removed, refuting, at this concrete input, that the flag
is forwarded to exactly those cells whose step signature supports it. -/
theorem training_flag_counterexample :
    nonLayerTrainingCell.callHasTrainingArg = true ∧
    StackedRNNCells.callKwTrace demoNonLayer (Tensor.sym 0)
        [PerCellState.single (Tensor.sym 1)] true [] =
      [Kwargs.mk none []] ∧
    Kwargs.mk none ([] : List (String × Nat)) ≠ Kwargs.mk (some true) [] := by
  refine ⟨rfl, rfl, ?_⟩
  decide

/-- C7 (amended): during a step invocation the training flag is forwarded
to exactly those cells that are `Layer` instances whose call signature
declares a training argument, and it is removed from the forwarded kwargs
for every other cell — the kwargs received by each cell are `kwFor` of
that cell. -/
theorem training_flag_forwarding (m : StackedRNNCells) (inputs : Tensor)
    (states : List PerCellState) (training : Bool)
    (rest : List (String × Nat)) (h : states.length = m.cells.length) :
    m.callKwTrace inputs states training rest =
      m.cells.map (kwFor training rest) := by
  unfold StackedRNNCells.callKwTrace
  rw [callLoop_eq_spec]
  exact callSpecT_trace training rest m.cells states inputs h

/-- Witness for the amended C7: in a two-cell composite where only the
second cell accepts a training flag, a call carrying the flag hands the
first cell kwargs without any training entry and hands the second cell
the flag; nothing is raised — the call is a total function here. -/
theorem training_flag_forwarding_witness :
    (([PerCellState.single (Tensor.sym 1),
       PerCellState.single (Tensor.sym 2)] : List PerCellState).length =
        demo2.cells.length) ∧
    demo2.callKwTrace (Tensor.sym 0)
        [PerCellState.single (Tensor.sym 1), PerCellState.single (Tensor.sym 2)]
        true [] =
      [Kwargs.mk none [], Kwargs.mk (some true) []] := by
  refine ⟨rfl, ?_⟩
  have h := training_flag_forwarding demo2 (Tensor.sym 0)
    [PerCellState.single (Tensor.sym 1), PerCellState.single (Tensor.sym 2)]
    true [] rfl
  exact h.trans rfl

/-- C2: for a composite with a non-empty cell sequence the composite
output size is resolved from the last cell by the stated precedence: the
declared `output_size` of that cell when present and non-null; else the
first element of a sequence-valued `state_size`; else the scalar
`state_size` itself. -/
theorem output_size_precedence (m : StackedRNNCells) (h : m.cells ≠ []) :
    (∀ n, (m.cells.getLast h).output_size = some n →
        m.output_size = Except.ok n) ∧
    ((m.cells.getLast h).output_size = none →
      ∀ d ds, (m.cells.getLast h).state_size = StateSize.seq (d :: ds) →
        m.output_size = Except.ok d) ∧
    ((m.cells.getLast h).output_size = none →
      ∀ k, (m.cells.getLast h).state_size = StateSize.scalar k →
        m.output_size = Except.ok k) := by
  have hl : m.cells.getLast? = some (m.cells.getLast h) :=
    List.getLast?_eq_getLast m.cells h
  refine ⟨?_, ?_, ?_⟩
  · intro n hn
    unfold StackedRNNCells.output_size
    rw [hl]
    simp [resolveOutputDim, hn]
  · intro ho d ds hs
    unfold StackedRNNCells.output_size
    rw [hl]
    simp [resolveOutputDim, ho, hs]
  · intro ho k hs
    unfold StackedRNNCells.output_size
    rw [hl]
    simp [resolveOutputDim, ho, hs]

/-- Witness for C2: three stacked cells where only the last declares an
output size of 16; the composite output size is 16 regardless of the
state sizes. -/
theorem output_size_precedence_witness :
    demo3.cells ≠ [] ∧ demo3.output_size = Except.ok 16 :=
  ⟨List.cons_ne_nil _ _,
   (output_size_precedence demo3 (List.cons_ne_nil _ _)).1 16 rfl⟩

/-- C3: constructing the composite fails with a contract-violation error
when any candidate lacks a `call` method or a `state_size` attribute —
the error is returned instead of any composite, so the failure happens
eagerly at construction and leaves no partial composite — and succeeds
storing the cells in the given order when every candidate exposes both
capabilities. -/
theorem init_contract (cells : List Cell) (base : List (String × Nat))
    (dtype : String) :
    ((∀ c ∈ cells, c.hasCall = true ∧ c.hasStateSize = true) →
      StackedRNNCells.init cells base dtype =
        Except.ok (StackedRNNCells.mk cells base dtype false)) ∧
    ((∃ c ∈ cells, c.hasCall = false ∨ c.hasStateSize = false) →
      ∃ e, StackedRNNCells.init cells base dtype = Except.error e) := by
  constructor
  · intro h
    unfold StackedRNNCells.init
    rw [validateCells_ok cells h]
  · intro h
    obtain ⟨e, he⟩ := validateCells_err cells h
    exact ⟨e, by unfold StackedRNNCells.init; rw [he]⟩

/-- Witness for C3: a fully capable cell constructs successfully with the
cell stored in order; a candidate lacking a `call` method fails
construction with an error. -/
theorem init_contract_witness :
    ((∀ c ∈ [cellA], c.hasCall = true ∧ c.hasStateSize = true) ∧
      StackedRNNCells.init [cellA] [] "float32" =
        Except.ok (StackedRNNCells.mk [cellA] [] "float32" false)) ∧
    ((∃ c ∈ [badCell], c.hasCall = false ∨ c.hasStateSize = false) ∧
      ∃ e, StackedRNNCells.init [badCell] [] "float32" = Except.error e) := by
  constructor
  · have hcap : ∀ c ∈ [cellA], c.hasCall = true ∧ c.hasStateSize = true := by
      intro c hc
      rw [List.mem_singleton.mp hc]
      exact ⟨rfl, rfl⟩
    exact ⟨hcap, (init_contract [cellA] [] "float32").1 hcap⟩
  · have hbad : ∃ c ∈ [badCell], c.hasCall = false ∨ c.hasStateSize = false :=
      ⟨badCell, List.mem_singleton.mpr rfl, Or.inl rfl⟩
    exact ⟨hbad, (init_contract [badCell] [] "float32").2 hbad⟩

theorem buildLoop_reentry :
    ∀ (cells : List Cell) (shape : List Nat) (cells2 : List Cell)
      (tr : List (Option (List Nat))),
    buildLoop cells shape = Except.ok (cells2, tr) →
    buildLoop cells2 shape =
      Except.ok (cells2, cells2.map (fun _ => none)) := by
  intro cells
  induction cells with
  | nil =>
    intro shape cells2 tr h
    simp only [buildLoop, Except.ok.injEq, Prod.mk.injEq] at h
    rw [← h.1]
    rfl
  | cons c cs ih =>
    intro shape cells2 tr h
    simp only [buildLoop] at h
    split at h
    · exact absurd h (by simp)
    · rename_i dim hdim
      split at h
      · exact absurd h (by simp)
      · rename_i b bs
        split at h
        · exact absurd h (by simp)
        · rename_i r hrec
          obtain ⟨r1, r2⟩ := r
          simp only [Except.ok.injEq, Prod.mk.injEq] at h
          obtain ⟨hcells, htr⟩ := h
          have ihr := ih [b, dim] r1 r2 hrec
          have hd2 : resolveOutputDim (Cell.markBuilt c) = some dim := hdim
          have hb2 : ((Cell.markBuilt c).isLayer && !(Cell.markBuilt c).built) =
              false := by simp [Cell.markBuilt]
          rw [← hcells]
          cases hdb : c.isLayer && !c.built with
          | true => simp [buildLoop, hb2, hd2, ihr]
          | false => simp [buildLoop, hdb, hdim, ihr]

/-- C4: build is idempotent — when a build of the composite succeeds, a
second build with the same input shape succeeds, changes nothing, and its
hook-invocation trace is all `none`: no build hook of any cell is
re-invoked, because every `Layer` cell now carries `built = true`. -/
theorem build_idempotent (m : StackedRNNCells) (shape : List Nat)
    (m2 : StackedRNNCells) (tr : List (Option (List Nat)))
    (h : m.build shape = Except.ok (m2, tr)) :
    m2.build shape = Except.ok (m2, m2.cells.map (fun _ => none)) := by
  unfold StackedRNNCells.build at h ⊢
  cases hb : buildLoop m.cells shape with
  | error e => rw [hb] at h; exact absurd h (by simp)
  | ok r =>
    obtain ⟨r1, r2⟩ := r
    rw [hb] at h
    simp only [Except.ok.injEq, Prod.mk.injEq] at h
    obtain ⟨hm2, htr⟩ := h
    rw [← hm2]
    simp only []
    rw [buildLoop_reentry m.cells shape r1 r2 hb]

/-- Witness for C4: building a two-cell composite on shape `(5, 7)`
invokes both hooks (with the running shapes `(5, 7)` and `(5, 4)`), and a
second build on the same shape invokes no hook at all. -/
theorem build_idempotent_witness :
    demo2.build [5, 7] =
      Except.ok (demo2Built, [some [5, 7], some [5, 4]]) ∧
    demo2Built.build [5, 7] = Except.ok (demo2Built, [none, none]) :=
  ⟨rfl,
   build_idempotent demo2 [5, 7] demo2Built [some [5, 7], some [5, 4]] rfl⟩

theorem buildLoop_trace :
    ∀ (cells : List Cell) (shape : List Nat) (cells2 : List Cell)
      (tr : List (Option (List Nat))),
    buildLoop cells shape = Except.ok (cells2, tr) →
    tr = buildTraceSpec cells shape ∧
    cells2 = cells.map
      (fun c => if c.isLayer && !c.built then Cell.markBuilt c else c) := by
  intro cells
  induction cells with
  | nil =>
    intro shape cells2 tr h
    simp only [buildLoop, Except.ok.injEq, Prod.mk.injEq] at h
    exact ⟨h.2.symm, h.1.symm⟩
  | cons c cs ih =>
    intro shape cells2 tr h
    simp only [buildLoop] at h
    split at h
    · exact absurd h (by simp)
    · rename_i dim hdim
      split at h
      · exact absurd h (by simp)
      · rename_i b bs
        split at h
        · exact absurd h (by simp)
        · rename_i r hrec
          obtain ⟨r1, r2⟩ := r
          simp only [Except.ok.injEq, Prod.mk.injEq] at h
          obtain ⟨hcells, htr⟩ := h
          obtain ⟨ih1, ih2⟩ := ih [b, dim] r1 r2 hrec
          constructor
          · rw [← htr, ih1]
            simp [buildTraceSpec, hdim]
          · rw [← hcells, ih2]
            simp

/-- C8 counterexample: a cell that is not yet built and exposes a build
hook, but is not a `Layer` instance, is skipped by build — the build of
a composite holding it succeeds with a hook-invocation trace of `none`
and leaves the cell unmarked (`built` stays false) — refuting, at this
concrete input, that the hook is invoked for each cell that is not yet
built and exposes a build hook. -/
theorem build_hook_counterexample :
    nonLayerBuildCell.hasBuildHook = true ∧
    nonLayerBuildCell.built = false ∧
    demoNonLayerBuild.build [5, 7] =
      Except.ok
        (StackedRNNCells.mk [nonLayerBuildCell] [] "float32" true, [none]) :=
  ⟨rfl, rfl, rfl⟩

/-- C8 (amended): a successful build processes the cells in order — the
trace of hook invocations is exactly the specification-side
`buildTraceSpec`: each cell that is not yet built and is a `Layer`
instance (the guard the code applies, rather than exposure of a build
hook) receives the running input shape, and the next running shape is the
pair of the first element of the flattened current shape and the resolved
output dimension of the cell; every not-yet-built `Layer` cell is marked
built, and after the last cell the composite itself is marked built. -/
theorem build_threads_shapes (m : StackedRNNCells) (shape : List Nat)
    (m2 : StackedRNNCells) (tr : List (Option (List Nat)))
    (h : m.build shape = Except.ok (m2, tr)) :
    tr = buildTraceSpec m.cells shape ∧
    m2.cells = m.cells.map
      (fun c => if c.isLayer && !c.built then Cell.markBuilt c else c) ∧
    m2.built = true := by
  unfold StackedRNNCells.build at h
  cases hb : buildLoop m.cells shape with
  | error e => rw [hb] at h; exact absurd h (by simp)
  | ok r =>
    obtain ⟨r1, r2⟩ := r
    rw [hb] at h
    simp only [Except.ok.injEq, Prod.mk.injEq] at h
    obtain ⟨hm2, htr⟩ := h
    obtain ⟨ih1, ih2⟩ := buildLoop_trace m.cells shape r1 r2 hb
    rw [← hm2, ← htr]
    exact ⟨ih1, ih2, rfl⟩

/-- Witness for C8 at the concrete two-cell composite and input shape
`(5, 7)`. -/
theorem build_threads_shapes_witness :
    demo2.build [5, 7] =
      Except.ok (demo2Built, [some [5, 7], some [5, 4]]) ∧
    ([some [5, 7], some [5, 4]] :
        List (Option (List Nat))) = buildTraceSpec demo2.cells [5, 7] ∧
    demo2Built.cells = demo2.cells.map
      (fun c => if c.isLayer && !c.built then Cell.markBuilt c else c) ∧
    demo2Built.built = true := by
  have h := build_threads_shapes demo2 [5, 7] demo2Built
    [some [5, 7], some [5, 4]] rfl
  exact ⟨rfl, h.1, h.2.1, h.2.2⟩

/-- C5: the list returned by `get_initial_state` has exactly one element
per cell, aligned with the cells by position, and — provided every custom
initial-state generator honours the declared arity of its cell, which is
what validity of a cell sequence demands — the arity of each element
matches the declared state arity of its cell. -/
theorem get_initial_state_aligned (m : StackedRNNCells) (batch : Nat)
    (hgen : ∀ c ∈ m.cells, ∀ fn, c.getInitialStateFn = some fn →
      (fn batch).arity = c.state_size.arity) :
    (m.get_initial_state batch).length = m.cells.length ∧
    List.Forall₂ (fun st c => PerCellState.arity st = StateSize.arity c.state_size)
      (m.get_initial_state batch) m.cells := by
  have hall : List.Forall₂
      (fun st c => PerCellState.arity st = StateSize.arity c.state_size)
      (m.cells.map (cellInitialState m.compute_dtype batch)) m.cells := by
    rw [List.forall₂_map_left_iff, List.forall₂_same]
    intro c hc
    unfold cellInitialState
    cases hfn : c.getInitialStateFn with
    | some fn => exact hgen c hc fn hfn
    | none =>
      cases hss : c.state_size with
      | scalar n => simp [PerCellState.arity, StateSize.arity]
      | seq dims => simp [PerCellState.arity, StateSize.arity]
  exact ⟨hall.length_eq, hall⟩

/-- Witness for C5 at the concrete two-cell composite (no custom
generators, so the generator hypothesis holds vacuously). -/
theorem get_initial_state_aligned_witness :
    (∀ c ∈ demo2.cells, ∀ fn, c.getInitialStateFn = some fn →
      (fn 3).arity = c.state_size.arity) ∧
    (demo2.get_initial_state 3).length = demo2.cells.length ∧
    List.Forall₂ (fun st c => PerCellState.arity st = StateSize.arity c.state_size)
      (demo2.get_initial_state 3) demo2.cells := by
  have hgen : ∀ c ∈ demo2.cells, ∀ fn, c.getInitialStateFn = some fn →
      (fn 3).arity = c.state_size.arity := by
    intro c hc fn hfn
    simp only [demo2, List.mem_cons, List.not_mem_nil, or_false] at hc
    rcases hc with rfl | rfl
    · simp [cellA, mkCell] at hfn
    · simp [cellB, mkCell] at hfn
  exact ⟨hgen, (get_initial_state_aligned demo2 3 hgen).1,
    (get_initial_state_aligned demo2 3 hgen).2⟩

/-- C6: for two cells with scalar `state_size` 4 and 8 and no custom
generators, `get_initial_state` with batch size 3 returns, in order, the
per-cell singleton sequences holding exactly the zero tensors of shapes
`(3, 4)` and `(3, 8)` in the `compute_dtype` of the composite. -/
theorem get_initial_state_concrete :
    demo2.get_initial_state 3 =
      [PerCellState.nested [Tensor.zeros [3, 4] "float32"],
       PerCellState.nested [Tensor.zeros [3, 8] "float32"]] := rfl

theorem deserializeCells_roundtrip (registry : List String)
    (cells : List Cell) (h : ∀ c ∈ cells, c.typeId ∈ registry) :
    deserializeCells registry (cells.map serialize_keras_object) =
      Except.ok cells := by
  induction cells with
  | nil => rfl
  | cons c cs ih =>
    have hc : c.typeId ∈ registry := h c (List.mem_cons_self c cs)
    simp [deserializeCells, deserialize_keras_object, serialize_keras_object,
      hc, ih (fun x hx => h x (List.mem_cons_of_mem c hx))]

theorem deserializeCells_fail (registry : List String) (cells : List Cell)
    (h : ∃ c ∈ cells, c.typeId ∉ registry) :
    ∃ t, deserializeCells registry (cells.map serialize_keras_object) =
      Except.error t := by
  induction cells with
  | nil => simp at h
  | cons c cs ih =>
    by_cases hc : c.typeId ∈ registry
    · obtain ⟨x, hx, hnx⟩ := h
      rcases List.mem_cons.mp hx with rfl | hx2
      · exact absurd hc hnx
      · obtain ⟨t, ht⟩ := ih ⟨x, hx2, hnx⟩
        exact ⟨t, by
          simp [deserializeCells, deserialize_keras_object,
            serialize_keras_object, hc, ht]⟩
    · exact ⟨c.typeId, by
        simp [deserializeCells, deserialize_keras_object,
          serialize_keras_object, hc]⟩

/-- C9: serialize-then-deserialize round-trips the structure of the
composite — when every cell type is known to the registry,
`from_config` of `get_config` reconstructs exactly one cell per
descriptor, in the original order, and constructs the composite from them
plus the remaining base configuration; when any one descriptor names an
unknown type, the whole reconstruction fails with a deserialization error
and no composite is returned. -/
theorem config_roundtrip (m : StackedRNNCells) (registry : List String) :
    ((∀ c ∈ m.cells, c.typeId ∈ registry ∧ c.hasCall = true ∧
        c.hasStateSize = true) →
      StackedRNNCells.from_config registry m.get_config =
        Except.ok (StackedRNNCells.mk m.cells m.base m.compute_dtype false)) ∧
    ((∃ c ∈ m.cells, c.typeId ∉ registry) →
      ∃ t, StackedRNNCells.from_config registry m.get_config =
        Except.error (FromConfigError.deser t)) := by
  constructor
  · intro h
    have hdes := deserializeCells_roundtrip registry m.cells
      (fun c hc => (h c hc).1)
    have hval := validateCells_ok m.cells
      (fun c hc => ⟨(h c hc).2.1, (h c hc).2.2⟩)
    simp [StackedRNNCells.from_config, StackedRNNCells.get_config,
      StackedRNNCells.init, hdes, hval]
  · intro h
    obtain ⟨t, ht⟩ := deserializeCells_fail registry m.cells h
    exact ⟨t, by
      simp [StackedRNNCells.from_config, StackedRNNCells.get_config, ht]⟩

/-- Witness for C9: the two-cell composite round-trips under a registry
knowing both cell types, and fails wholesale under a registry missing the
second type. -/
theorem config_roundtrip_witness :
    ((∀ c ∈ demo2.cells, c.typeId ∈ ["A", "B"] ∧ c.hasCall = true ∧
        c.hasStateSize = true) ∧
      StackedRNNCells.from_config ["A", "B"] demo2.get_config =
        Except.ok (StackedRNNCells.mk demo2.cells demo2.base
          demo2.compute_dtype false)) ∧
    ((∃ c ∈ demo2.cells, c.typeId ∉ ["A"]) ∧
      ∃ t, StackedRNNCells.from_config ["A"] demo2.get_config =
        Except.error (FromConfigError.deser t)) := by
  have hgood : ∀ c ∈ demo2.cells, c.typeId ∈ ["A", "B"] ∧ c.hasCall = true ∧
      c.hasStateSize = true := by
    intro c hc
    simp only [demo2, List.mem_cons, List.not_mem_nil, or_false] at hc
    rcases hc with rfl | rfl
    · exact ⟨by simp [cellA, mkCell], rfl, rfl⟩
    · exact ⟨by simp [cellB, mkCell], rfl, rfl⟩
  have hbad : ∃ c ∈ demo2.cells, c.typeId ∉ ["A"] := by
    refine ⟨cellB, by simp [demo2], ?_⟩
    simp [cellB, mkCell]
  exact ⟨⟨hgood, (config_roundtrip demo2 ["A", "B"]).1 hgood⟩,
    ⟨hbad, (config_roundtrip demo2 ["A"]).2 hbad⟩⟩

/-- C10: constructing a composite from an empty cell sequence succeeds —
the validation loop passes vacuously and no error is raised — yet the
`output_size` of the result is not total: it fails by indexing the last
element of the empty cell sequence, and this empty-indexing failure is
reachable only for the empty sequence: for every composite with a
non-empty cell sequence the `emptyCells` branch is unreachable. -/
theorem empty_cells_output_size :
    StackedRNNCells.init [] [] "float32" =
      Except.ok (StackedRNNCells.mk [] [] "float32" false) ∧
    StackedRNNCells.output_size (StackedRNNCells.mk [] [] "float32" false) =
      Except.error OutputSizeError.emptyCells ∧
    ∀ m : StackedRNNCells, m.cells ≠ [] →
      m.output_size ≠ Except.error OutputSizeError.emptyCells := by
  refine ⟨rfl, rfl, ?_⟩
  intro m hm
  obtain ⟨c, hc⟩ := Option.isSome_iff_exists.mp
    (by simp [List.getLast?_isSome, hm] :
      (m.cells.getLast?).isSome)
  intro hbad
  unfold StackedRNNCells.output_size at hbad
  rw [hc] at hbad
  cases hr : resolveOutputDim c with
  | none => simp [hr] at hbad
  | some n => simp [hr] at hbad

/-- Witness for C10 at a concrete non-empty composite. -/
theorem empty_cells_output_size_witness :
    demo2.cells ≠ [] ∧
    demo2.output_size ≠ Except.error OutputSizeError.emptyCells :=
  ⟨List.cons_ne_nil _ _,
   empty_cells_output_size.2.2 demo2 (List.cons_ne_nil _ _)⟩

end StackedRNN
